import Mathlib

/-!
Shallow embedding of the risk-gated order execution engine of AI-Trader
(`src/agent_tools/tool_live_trade.py`, `src/tools/live_risk_state.py`,
`src/tools/live_alerts.py`, `src/integrations/alpaca_broker.py`).

Modelling conventions:
* Python floats are modelled as `ℚ`; all the arithmetic the claims touch is
  exact decimal arithmetic, so rationals are faithful.
* `os.getenv` results are modelled by `EnvVal`: unset, empty string,
  present-but-unparseable, or a parsed number.  `float(value)` with the
  `ValueError` handler collapses to `getEnvFloat`.
* Broker HTTP calls either return a payload or raise; this is `Except Exc _`
  with `Exc := String` (the text of `str(exc)`).  The broker is a
  deterministic oracle: the same call yields the same response within a run.
* Numeric interpolation into message strings (Python f-strings) is rendered
  with `toString`; no claim depends on the exact float formatting.
* `time.sleep` has no observable effect in the model and is dropped.
-/

namespace AITrader

abbrev Exc := String

/-- Result of `os.getenv(key)` for one of the numeric risk-limit variables:
the variable may be unset, set to the empty string, set to a string that
`float(...)` rejects, or set to a parseable number. -/
inductive EnvVal where
  | unset
  | empty
  | malformed
  | num (q : ℚ)
deriving DecidableEq, Repr

/-- `_get_env_float`: unset and empty yield `None`; a `ValueError` from
`float(value)` is caught and also yields `None`. -/
def getEnvFloat : EnvVal → Option ℚ
  | .unset => none
  | .empty => none
  | .malformed => none
  | .num q => some q

/-- The environment variables `tool_live_trade.py` reads.  `allowShort` is the
raw string of `os.getenv("ALLOW_SHORT")`; `twapSlices`/`twapIntervalSeconds`
hold the successfully parsed integer (`none` when unset, empty or
unparseable, in which case `_get_env_int` falls back to its default). -/
structure Env where
  maxOrderNotionalUsd : EnvVal
  maxOrderPctEquity : EnvVal
  maxPositionNotionalUsd : EnvVal
  maxPositionPctEquity : EnvVal
  maxDailyLossPct : EnvVal
  allowShort : Option String
  twapSlices : Option Int
  twapIntervalSeconds : Option Int
deriving DecidableEq, Repr

/-- `_get_env_int(key, default)`. -/
def getEnvInt (v : Option Int) (default : Int) : Int :=
  v.getD default

/-- Python `str.lower()`, character-wise. -/
def pyLower (s : String) : String :=
  ⟨s.data.map Char.toLower⟩

/-- `os.getenv("ALLOW_SHORT", "false").lower() == "true"`. -/
def allowShortFlag (e : Env) : Bool :=
  pyLower (e.allowShort.getD "false") == "true"

/-- Account snapshot after the `float(account.get(...))` parses in `live_buy`:
`none` records a missing or unparseable field (the `TypeError`/`ValueError`
handler sets the figure to `None`). -/
structure Account where
  equity : Option ℚ
  buying_power : Option ℚ
deriving DecidableEq, Repr

/-- One position dict: `qty`/`market_value` are `none` when the stored field
fails `float(...)` (the `ValueError` handler yields `0.0`); a missing field
defaults to `0` and is modelled as `some 0`. -/
structure PosEntry where
  symbol : String
  qty : Option ℚ
  market_value : Option ℚ
deriving DecidableEq, Repr

/-- The positions payload: outer `none` models a non-list JSON response
(`isinstance(positions, list)` fails); an inner `none` models a non-dict
element, which the lookup loops skip. -/
abbrev PositionsVal := Option (List (Option PosEntry))

/-- `_get_position_qty`: the `qty` of the first entry matching the symbol,
`0.0` for a non-list payload, a missing symbol or an unparseable field. -/
def getPositionQty : PositionsVal → String → ℚ
  | none, _ => 0
  | some [], _ => 0
  | some (none :: rest), s => getPositionQty (some rest) s
  | some (some p :: rest), s =>
      if p.symbol = s then p.qty.getD 0 else getPositionQty (some rest) s

/-- `_get_position_notional`: `abs(market_value)` of the first matching
entry, `0.0` otherwise. -/
def getPositionNotional : PositionsVal → String → ℚ
  | none, _ => 0
  | some [], _ => 0
  | some (none :: rest), s => getPositionNotional (some rest) s
  | some (some p :: rest), s =>
      if p.symbol = s then |p.market_value.getD 0| else getPositionNotional (some rest) s

/-- `_estimate_order_notional`. -/
def estimateOrderNotional (qty notional estimated_price : Option ℚ) : Option ℚ :=
  match notional with
  | some n => some n
  | none =>
    match qty, estimated_price with
    | some q, some p => some (q * p)
    | _, _ => none

/-- The percent-of-equity half of `_ensure_notional_limits`: Python guards it
with `if max_pct is not None and equity:`, so an unknown or zero equity skips
the check. -/
def orderPctCheck (e : Env) (notional : ℚ) (equity : Option ℚ) : Option String :=
  match getEnvFloat e.maxOrderPctEquity, equity with
  | some maxPct, some eq =>
    if eq ≠ 0 ∧ notional > eq * maxPct then
      some ("Order notional " ++ toString notional ++ " exceeds MAX_ORDER_PCT_EQUITY "
        ++ toString maxPct)
    else none
  | _, _ => none

/-- The absolute half of `_ensure_notional_limits`. -/
def orderAbsCheck (e : Env) (notional : ℚ) : Option String :=
  match getEnvFloat e.maxOrderNotionalUsd with
  | some maxNotional =>
    if notional > maxNotional then
      some ("Order notional " ++ toString notional ++ " exceeds MAX_ORDER_NOTIONAL_USD "
        ++ toString maxNotional)
    else none
  | none => none

/-- `_ensure_notional_limits`: absolute cap first, then percent-of-equity. -/
def ensureNotionalLimits (e : Env) (notional : ℚ) (equity : Option ℚ) : Option String :=
  match orderAbsCheck e notional with
  | some m => some m
  | none => orderPctCheck e notional equity

/-- `_ensure_position_limits` over `new_notional = current + order`. -/
def ensurePositionLimits (e : Env) (current_notional order_notional : ℚ)
    (equity : Option ℚ) : Option String :=
  let new_notional := current_notional + order_notional
  match getEnvFloat e.maxPositionNotionalUsd with
  | some maxPos =>
    if new_notional > maxPos then
      some ("Position notional " ++ toString new_notional
        ++ " exceeds MAX_POSITION_NOTIONAL_USD " ++ toString maxPos)
    else
      match getEnvFloat e.maxPositionPctEquity, equity with
      | some maxPct, some eq =>
        if eq ≠ 0 ∧ new_notional > eq * maxPct then
          some ("Position notional " ++ toString new_notional
            ++ " exceeds MAX_POSITION_PCT_EQUITY " ++ toString maxPct)
        else none
      | _, _ => none
  | none =>
    match getEnvFloat e.maxPositionPctEquity, equity with
    | some maxPct, some eq =>
      if eq ≠ 0 ∧ new_notional > eq * maxPct then
        some ("Position notional " ++ toString new_notional
          ++ " exceeds MAX_POSITION_PCT_EQUITY " ++ toString maxPct)
      else none
    | _, _ => none

/-- Python `int(x)` on a float: truncation toward zero (`num.tdiv den` on
the reduced fraction). -/
def pyTrunc (q : ℚ) : Int :=
  Int.tdiv q.num (q.den : Int)

/-- `_split_equity_qty`: `base = int(qty) // slices` and
`remainder = int(qty) % slices` with Python floor-division semantics,
one extra unit on each of the first `remainder` slices, zero slices
dropped; degenerate cases return a single slice. -/
def splitEquityQty (total_qty : ℚ) (slices : Int) : List ℚ :=
  if slices ≤ 1 then [total_qty]
  else if Int.fdiv (pyTrunc total_qty) slices ≤ 0 then [(pyTrunc total_qty : ℚ)]
  else
    ((List.range slices.toNat).map
      (fun (i : ℕ) =>
        if (i : Int) < Int.fmod (pyTrunc total_qty) slices then
          (Int.fdiv (pyTrunc total_qty) slices : ℚ) + 1
        else (Int.fdiv (pyTrunc total_qty) slices : ℚ))).filter (fun q => 0 < q)

/-- `_split_notional`: even real-valued split, no remainder handling. -/
def splitNotional (total_notional : ℚ) (slices : Int) : List ℚ :=
  if slices ≤ 1 then [total_notional]
  else List.replicate slices.toNat (total_notional / (slices : ℚ))

/-- The `"daily"` object of the persisted state file; either key may be
missing in a hand-edited or legacy file. -/
structure DayState where
  date : Option String
  equity_start : Option ℚ
deriving DecidableEq, Repr

/-- The persisted state file (`live_state.json`); `daily = none` models a
missing file, a corrupt file (loaded as `{}`) or an absent `"daily"` key. -/
structure StateFile where
  daily : Option DayState
deriving DecidableEq, Repr

/-- `get_or_init_day_state` from `live_risk_state.py`: returns the stored
day state when its date equals today, otherwise replaces it with a fresh
baseline and persists the new file.  The returned `StateFile` is the
persisted state after the call. -/
def getOrInitDayState (today : String) (equity : ℚ) (st : StateFile) :
    DayState × StateFile :=
  let day := st.daily.getD ⟨none, none⟩
  if day.date = some today then (day, st)
  else
    let fresh : DayState := ⟨some today, some equity⟩
    (fresh, ⟨some fresh⟩)

/-- `_daily_loss_exceeded`: also returns the state file as left by the
embedded `get_or_init_day_state` call.  `if not equity_start:` skips the
check for a missing or zero baseline. -/
def dailyLossExceeded (e : Env) (today : String) (equity : Option ℚ)
    (st : StateFile) : Option String × StateFile :=
  match equity with
  | none => (none, st)
  | some eq =>
    match getEnvFloat e.maxDailyLossPct with
    | none => (none, st)
    | some maxLossPct =>
      let res := getOrInitDayState today eq st
      match res.1.equity_start with
      | none => (none, res.2)
      | some equity_start =>
        if equity_start = 0 then (none, res.2)
        else
          let drawdown := max 0 ((equity_start - eq) / equity_start)
          if drawdown ≥ maxLossPct then
            (some ("Daily loss " ++ toString drawdown ++ " exceeds MAX_DAILY_LOSS_PCT "
              ++ toString maxLossPct), res.2)
          else (none, res.2)

/-- The payload `AlpacaBroker.submit_order` builds and sends. -/
structure SubmitArgs where
  symbol : String
  side : String
  qty : Option ℚ
  notional : Option ℚ
  order_type : String
  limit_price : Option ℚ
  stop_price : Option ℚ
  time_in_force : Option String
deriving DecidableEq, Repr

/-- The broker's JSON reply to a successful order submission, kept opaque. -/
structure OrderResponse where
  raw : String
deriving DecidableEq, Repr

/-- The Alpaca REST adapter as a deterministic oracle: each operation either
returns a payload or raises (`Except.error` carries `str(exc)`; this covers
non-2xx responses, network failures and the missing-credentials
`ValueError`). -/
structure Broker where
  accountResp : Except Exc Account
  positionsResp : Except Exc PositionsVal
  submitResp : SubmitArgs → Except Exc OrderResponse

/-- `AlpacaBroker.submit_order`, including its own guard
`if not qty and notional is None: raise ValueError(...)` (note `not qty` is
also true for `qty == 0`). -/
def submitOrder (b : Broker) (s : SubmitArgs) : Except Exc OrderResponse :=
  if s.qty.getD 0 = 0 ∧ s.notional = none then
    .error "Either qty or notional must be provided"
  else b.submitResp s

/-- One `notify_alert(event, {"type": t, "symbol": s, "details": d})` call. -/
structure Alert where
  event : String
  type : String
  symbol : String
  details : String
deriving DecidableEq, Repr

/-- The dict returned by `live_buy`/`live_sell`: a bare `{"error": msg}`, an
error dict with the extra `buying_power` or `current_qty` key, or the broker
order response. -/
inductive TradeRes where
  | err (msg : String)
  | errBuyingPower (msg : String) (buying_power : ℚ)
  | errCurrentQty (msg : String) (current_qty : ℚ)
  | order (resp : OrderResponse)
deriving DecidableEq, Repr

/-- The keyword arguments of `live_buy`/`live_sell`. -/
structure OrderArgs where
  symbol : String
  qty : Option ℚ
  notional : Option ℚ
  estimated_price : Option ℚ
  order_type : String
  limit_price : Option ℚ
  stop_price : Option ℚ
  time_in_force : Option String
  asset_class : String
deriving DecidableEq, Repr

/-- Ambient state of one tool invocation: configuration, broker oracle,
today's date (`datetime.utcnow().date().isoformat()`), and the persisted
risk-state file. -/
structure World where
  env : Env
  broker : Broker
  today : String
  state : StateFile

/-- The default `time_in_force` resolution shared by buy and sell. -/
def resolveTif (a : OrderArgs) : String :=
  a.time_in_force.getD (if a.asset_class = "crypto" then "gtc" else "day")

/-- The `try: broker.submit_order(...) except Exception as exc: {"error": str(exc)}`
tail of `live_buy`/`live_sell`. -/
def submitCaught (b : Broker) (s : SubmitArgs) : TradeRes :=
  match submitOrder b s with
  | .ok r => .order r
  | .error e => .err e

/-- The submission leg of `live_buy`. -/
def buySubmit (a : OrderArgs) (b : Broker) : TradeRes :=
  submitCaught b
    ⟨a.symbol, "buy", a.qty, a.notional, a.order_type, a.limit_price, a.stop_price,
      some (resolveTif a)⟩

/-- The submission leg of `live_sell`. -/
def sellSubmit (a : OrderArgs) (b : Broker) : TradeRes :=
  submitCaught b
    ⟨a.symbol, "sell", a.qty, a.notional, a.order_type, a.limit_price, a.stop_price,
      some (resolveTif a)⟩

/-- The `any(_get_env_float(key) is not None for key in (...))` test guarding
the fail-closed rejection in `live_buy`. -/
def anyNotionalLimitConfigured (e : Env) : Bool :=
  (getEnvFloat e.maxOrderNotionalUsd).isSome || (getEnvFloat e.maxOrderPctEquity).isSome
    || (getEnvFloat e.maxPositionNotionalUsd).isSome
    || (getEnvFloat e.maxPositionPctEquity).isSome

/-- The position-limit phase of `live_buy`: fetches positions (uncaught on
failure) and applies `_ensure_position_limits`, else submits. -/
def buyPositionsPhase (a : OrderArgs) (w : World) (st : StateFile)
    (equity : Option ℚ) (order_notional : ℚ) :
    StateFile × List Alert × Except Exc TradeRes :=
  match w.broker.positionsResp with
  | .error e => (st, [], .error e)
  | .ok ps =>
    let current_notional := getPositionNotional ps a.symbol
    match ensurePositionLimits w.env current_notional order_notional equity with
    | some m =>
      (st, [⟨"risk_limit_triggered", "position_limit", a.symbol, m⟩], .ok (.err m))
    | none => (st, [], .ok (buySubmit a w.broker))

/-- `live_buy`.  Returns the persisted state file after the call, the alerts
emitted, and either the returned dict (`Except.ok`) or an uncaught exception
(`Except.error`).  The account fetch and the positions fetch are outside any
handler; only `submit_order` is wrapped in try/except. -/
def live_buy (a : OrderArgs) (w : World) : StateFile × List Alert × Except Exc TradeRes :=
  if a.qty = none ∧ a.notional = none then
    (w.state, [], .ok (.err "Either qty or notional must be provided"))
  else
    match w.broker.accountResp with
    | .error e => (w.state, [], .error e)
    | .ok account =>
      let equity := account.equity
      let buying_power := account.buying_power
      let order_notional := estimateOrderNotional a.qty a.notional a.estimated_price
      if order_notional = none ∧ anyNotionalLimitConfigured w.env then
        (w.state, [],
          .ok (.err "estimated_price is required when qty is used with notional limits"))
      else
        let loss := dailyLossExceeded w.env w.today equity w.state
        match loss.1 with
        | some m =>
          (loss.2, [⟨"risk_limit_triggered", "daily_loss", a.symbol, m⟩], .ok (.err m))
        | none =>
          match order_notional with
          | some onv =>
            match ensureNotionalLimits w.env onv equity with
            | some m =>
              (loss.2, [⟨"risk_limit_triggered", "order_notional", a.symbol, m⟩],
                .ok (.err m))
            | none =>
              match buying_power with
              | some bp =>
                if onv > bp then
                  (loss.2,
                    [⟨"risk_limit_triggered", "buying_power", a.symbol,
                      "Insufficient buying power"⟩],
                    .ok (.errBuyingPower "Insufficient buying power" bp))
                else buyPositionsPhase a w loss.2 equity onv
              | none => buyPositionsPhase a w loss.2 equity onv
          | none => (loss.2, [], .ok (buySubmit a w.broker))

/-- `live_sell`.  The short-sale guard runs only when shorting is disabled
and an explicit `qty` was given; its rejection is returned without any
alert.  The positions fetch inside the guard is outside any handler. -/
def live_sell (a : OrderArgs) (w : World) : StateFile × List Alert × Except Exc TradeRes :=
  if a.qty = none ∧ a.notional = none then
    (w.state, [], .ok (.err "Either qty or notional must be provided"))
  else
    if allowShortFlag w.env = false ∧ a.qty ≠ none then
      match w.broker.positionsResp with
      | .error e => (w.state, [], .error e)
      | .ok ps =>
        let current_qty := getPositionQty ps a.symbol
        if a.qty.getD 0 > current_qty then
          (w.state, [],
            .ok (.errCurrentQty "Shorting disabled or insufficient position" current_qty))
        else (w.state, [], .ok (sellSubmit a w.broker))
    else (w.state, [], .ok (sellSubmit a w.broker))

/-- The keyword arguments of `live_twap_order`. -/
structure TwapArgs where
  symbol : String
  side : String
  qty : Option ℚ
  notional : Option ℚ
  estimated_price : Option ℚ
  slices : Option Int
  interval_seconds : Option Int
  order_type : String
  limit_price : Option ℚ
  stop_price : Option ℚ
  time_in_force : Option String
  asset_class : String
deriving DecidableEq, Repr

/-- The dict returned by `live_twap_order`: an early validation error or
`{"slices": n, "results": [...]}`. -/
inductive TwapRes where
  | err (msg : String)
  | res (slices : Nat) (results : List TradeRes)
deriving DecidableEq, Repr

/-- The child-order arguments a TWAP slice passes to the Order Router
(`notional`-sliced children omit `estimated_price`, as in the source). -/
def twapSliceOrder (a : TwapArgs) (sliceQty sliceNotional estPrice : Option ℚ) : OrderArgs :=
  ⟨a.symbol, sliceQty, sliceNotional, estPrice, a.order_type, a.limit_price, a.stop_price,
    a.time_in_force, a.asset_class⟩

/-- The sequential slice loop: each child order threads the persisted state
to the next; alerts accumulate; an uncaught exception in a child aborts the
loop, discarding the results gathered so far. -/
def runSlices (step : ℚ → World → StateFile × List Alert × Except Exc TradeRes) :
    List ℚ → World → List Alert → List TradeRes →
      StateFile × List Alert × Except Exc (List TradeRes)
  | [], w, als, acc => (w.state, als, .ok acc)
  | x :: xs, w, als, acc =>
    match step x w with
    | (st, al, .error e) => (st, als ++ al, .error e)
    | (st, al, .ok r) => runSlices step xs { w with state := st } (als ++ al) (acc ++ [r])

/-- `slice_count = slices or _get_env_int("TWAP_SLICES", 4)`: Python `or`
falls back to the configured default also when `slices == 0` (falsy). -/
def twapSliceCount (a : TwapArgs) (e : Env) : Int :=
  match a.slices with
  | some n => if n = 0 then getEnvInt e.twapSlices 4 else n
  | none => getEnvInt e.twapSlices 4

/-- The per-slice size list a TWAP order plans: equity quantities via
`_split_equity_qty`, crypto quantities split evenly (a zero slice count is
Python's uncaught `ZeroDivisionError`), notionals via `_split_notional`. -/
def twapPlan (a : TwapArgs) (e : Env) : Except Exc (List ℚ) :=
  let n := twapSliceCount a e
  match a.qty with
  | some q =>
    if a.asset_class = "equity" then .ok (splitEquityQty q n)
    else if n = 0 then .error "float division by zero"
    else .ok (List.replicate n.toNat (q / (n : ℚ)))
  | none => .ok (splitNotional (a.notional.getD 0) n)

/-- The child order a slice of size `x` delegates to the router: a
`qty`-sliced child passes `estimated_price` through, a `notional`-sliced
child omits it (as in the source). -/
def twapStep (a : TwapArgs) (side : String) (x : ℚ) (w : World) :
    StateFile × List Alert × Except Exc TradeRes :=
  let oa :=
    if a.qty ≠ none then twapSliceOrder a (some x) none a.estimated_price
    else twapSliceOrder a none (some x) none
  if side = "buy" then live_buy oa w else live_sell oa w

/-- `live_twap_order`.  The inter-slice sleep has no observable effect in
the model and is dropped. -/
def live_twap_order (a : TwapArgs) (w : World) :
    StateFile × List Alert × Except Exc TwapRes :=
  let side := pyLower a.side
  if side ≠ "buy" ∧ side ≠ "sell" then
    (w.state, [], .ok (.err "side must be buy or sell"))
  else if a.qty = none ∧ a.notional = none then
    (w.state, [], .ok (.err "Either qty or notional must be provided"))
  else
    match twapPlan a w.env with
    | .error e => (w.state, [], .error e)
    | .ok xs =>
      match runSlices (twapStep a side) xs w [] [] with
      | (st, als, .error e) => (st, als, .error e)
      | (st, als, .ok rs) => (st, als, .ok (.res rs.length rs))

/-- The message carried by an error dict, if the result is one. -/
def tradeErrMsg : TradeRes → Option String
  | .err m => some m
  | .errBuyingPower m _ => some m
  | .errCurrentQty m _ => some m
  | .order _ => none

/-- First defined element of a list of optional check outcomes. -/
def firstSome {α : Type} : List (Option α) → Option α
  | [] => none
  | some a :: _ => some a
  | none :: rest => firstSome rest

/-- Modelled from the spec's §4.1 check list: the five risk checks of a buy
evaluation in the order the spec fixes — daily-loss circuit breaker,
per-order notional limit, per-order percent-of-equity limit, buying-power
check, position notional limit — each yielding the alert type, the rejection
message and the dict the rejection returns.  Sizing checks are skipped when
`order_notional` is unknown, matching the code once the fail-closed guard is
out of the way. -/
def riskChecksInSpecOrder (e : Env) (today : String) (st : StateFile) (acc : Account)
    (order_notional : Option ℚ) (positions : PositionsVal) (symbol : String) :
    List (Option (String × String × TradeRes)) :=
  [ (dailyLossExceeded e today acc.equity st).1.map (fun m => ("daily_loss", m, .err m)),
    order_notional.bind (fun n =>
      (orderAbsCheck e n).map (fun m => ("order_notional", m, .err m))),
    order_notional.bind (fun n =>
      (orderPctCheck e n acc.equity).map (fun m => ("order_notional", m, .err m))),
    order_notional.bind (fun n => acc.buying_power.bind (fun bp =>
      if n > bp then
        some ("buying_power", "Insufficient buying power",
          .errBuyingPower "Insufficient buying power" bp)
      else none)),
    order_notional.bind (fun n =>
      (ensurePositionLimits e (getPositionNotional positions symbol) n acc.equity).map
        (fun m => ("position_limit", m, .err m))) ]

/-! Concrete fixtures used by the witnesses and counterexamples. -/

/-- All risk-limit variables unset, `ALLOW_SHORT` unset. -/
def env0 : Env := ⟨.unset, .unset, .unset, .unset, .unset, none, none, none⟩

/-- Only `MAX_DAILY_LOSS_PCT=0.05` configured. -/
def envDL : Env := ⟨.unset, .unset, .unset, .unset, .num (1/20), none, none, none⟩

/-- `MAX_ORDER_NOTIONAL_USD=1000` and `MAX_DAILY_LOSS_PCT=0.05` configured. -/
def envCX : Env := ⟨.num 1000, .unset, .unset, .unset, .num (1/20), none, none, none⟩

/-- Persisted baseline: `{daily: {date: "2024-01-02", equity_start: 10000}}`. -/
def stDL : StateFile := ⟨some ⟨some "2024-01-02", some 10000⟩⟩

/-- A healthy broker holding no positions, equity 9500. -/
def brokerOK : Broker :=
  ⟨.ok ⟨some 9500, some 50000⟩, .ok (some []), fun _ => .ok ⟨"filled"⟩⟩

/-- A broker whose account-snapshot endpoint raises. -/
def brokerBoom : Broker :=
  ⟨.error "Alpaca API error 500: boom", .ok (some []), fun _ => .ok ⟨"filled"⟩⟩

/-- A broker holding 5 shares of AAPL. -/
def brokerHeld : Broker :=
  ⟨.ok ⟨some 9500, some 50000⟩, .ok (some [some ⟨"AAPL", some 5, some 900⟩]),
    fun _ => .ok ⟨"filled"⟩⟩

/-- A broker that rejects the first 4-share slice at submission but fills
the rest. -/
def brokerSliceFail : Broker :=
  ⟨.ok ⟨some 9500, some 50000⟩, .ok (some []),
    fun s => if s.qty = some 4 then .error "Alpaca API error 403: rejected" else .ok ⟨"filled"⟩⟩

/-- A buy of 1 share of AAPL by qty, no price estimate. -/
def argsQty1 : OrderArgs := ⟨"AAPL", some 1, none, none, "market", none, none, none, "equity"⟩

/-- A sell of 8 shares of AAPL. -/
def argsSell8 : OrderArgs := ⟨"AAPL", some 8, none, none, "market", none, none, none, "equity"⟩

/-- A sell of 5 shares of AAPL. -/
def argsSell5 : OrderArgs := ⟨"AAPL", some 5, none, none, "market", none, none, none, "equity"⟩

/-- A TWAP buy of 10 shares in 3 slices. -/
def twapQty10 : TwapArgs :=
  ⟨"AAPL", "buy", some 10, none, some 100, some 3, some 0, "market", none, none, none, "equity"⟩

/-- A TWAP buy of notional 100 in 3 slices. -/
def twapN100 : TwapArgs :=
  ⟨"AAPL", "buy", none, some 100, none, some 3, some 0, "market", none, none, none, "equity"⟩

/-- World with no limits configured and an empty state file. -/
def wOK : World := ⟨env0, brokerOK, "2024-01-02", ⟨none⟩⟩

/-- World whose account fetch raises. -/
def wBoom : World := ⟨env0, brokerBoom, "2024-01-02", ⟨none⟩⟩

/-- World holding 5 AAPL shares, shorting not enabled. -/
def wHeld : World := ⟨env0, brokerHeld, "2024-01-02", ⟨none⟩⟩

/-- World with the daily-loss breaker tripped (baseline 10000, equity 9500,
limit 5%). -/
def wDL : World := ⟨envDL, brokerOK, "2024-01-02", stDL⟩

/-- World with the breaker tripped *and* an order-notional limit configured. -/
def wCX : World := ⟨envCX, brokerOK, "2024-01-02", stDL⟩

/-- World where the first TWAP slice's submission is rejected. -/
def wSliceFail : World := ⟨env0, brokerSliceFail, "2024-01-02", ⟨none⟩⟩

/-! Helper lemmas. -/

/-- When the account and positions fetches succeed, `live_buy` never raises:
every branch returns a dict (`submit_order` is the only call in a
try/except, and the two uncaught fetches are assumed healthy). -/
theorem live_buy_total (a : OrderArgs) (w : World) (acc : Account) (ps : PositionsVal)
    (hacc : w.broker.accountResp = .ok acc) (hps : w.broker.positionsResp = .ok ps) :
    ∃ st al r, live_buy a w = (st, al, Except.ok r) := by
  unfold live_buy
  split
  · exact ⟨_, _, _, rfl⟩
  · cases hE : w.broker.accountResp with
    | error e => rw [hE] at hacc; simp at hacc
    | ok account =>
      dsimp only
      split
      · exact ⟨_, _, _, rfl⟩
      · split
        · exact ⟨_, _, _, rfl⟩
        · split
          · split
            · exact ⟨_, _, _, rfl⟩
            · split
              · split
                · exact ⟨_, _, _, rfl⟩
                · unfold buyPositionsPhase
                  cases hP : w.broker.positionsResp with
                  | error e => rw [hP] at hps; simp at hps
                  | ok ps2 =>
                    dsimp only
                    split
                    · exact ⟨_, _, _, rfl⟩
                    · exact ⟨_, _, _, rfl⟩
              · unfold buyPositionsPhase
                cases hP : w.broker.positionsResp with
                | error e => rw [hP] at hps; simp at hps
                | ok ps2 =>
                  dsimp only
                  split
                  · exact ⟨_, _, _, rfl⟩
                  · exact ⟨_, _, _, rfl⟩
          · exact ⟨_, _, _, rfl⟩

/-- When the positions fetch succeeds, `live_sell` never raises. -/
theorem live_sell_total (a : OrderArgs) (w : World) (ps : PositionsVal)
    (hps : w.broker.positionsResp = .ok ps) :
    ∃ st al r, live_sell a w = (st, al, Except.ok r) := by
  unfold live_sell
  split
  · exact ⟨_, _, _, rfl⟩
  · split
    · cases hE : w.broker.positionsResp with
      | error e => rw [hE] at hps; simp at hps
      | ok ps2 =>
        dsimp only
        split
        · exact ⟨_, _, _, rfl⟩
        · exact ⟨_, _, _, rfl⟩
    · exact ⟨_, _, _, rfl⟩

/-- `live_sell` never calls `notify_alert`: no branch of the sell path —
the short-sale rejection included — produces an alert. -/
theorem live_sell_alerts_nil (a : OrderArgs) (w : World) : (live_sell a w).2.1 = [] := by
  unfold live_sell
  split
  · rfl
  · split
    · cases hps : w.broker.positionsResp with
      | error e => rfl
      | ok ps =>
        dsimp only
        split <;> rfl
    · rfl

/-- The sequential slice loop runs to completion with one result appended
per slice, for any step function that never raises on worlds satisfying a
state-update-stable invariant. -/
theorem runSlices_total (step : ℚ → World → StateFile × List Alert × Except Exc TradeRes)
    (P : World → Prop)
    (hpres : ∀ w st, P w → P { w with state := st })
    (hstep : ∀ x w, P w → ∃ st al r, step x w = (st, al, Except.ok r)) :
    ∀ (xs : List ℚ) (w : World) (als : List Alert) (acc : List TradeRes), P w →
      ∃ st als2 rs, runSlices step xs w als acc = (st, als2, Except.ok rs)
        ∧ rs.length = acc.length + xs.length := by
  intro xs
  induction xs with
  | nil =>
    intro w als acc _
    exact ⟨w.state, als, acc, rfl, by simp [runSlices]⟩
  | cons x xs ih =>
    intro w als acc hw
    obtain ⟨st, al, r, hx⟩ := hstep x w hw
    obtain ⟨st2, als2, rs, hrec, hlen⟩ :=
      ih { w with state := st } (als ++ al) (acc ++ [r]) (hpres w st hw)
    refine ⟨st2, als2, rs, ?_, ?_⟩
    · simp only [runSlices, hx]
      exact hrec
    · simp at hlen
      simp [hlen]
      omega

/-- The position-limit phase of `live_buy`, rewritten over a healthy
positions fetch. -/
theorem buyPositionsPhase_eq (a : OrderArgs) (w : World) (st : StateFile)
    (equity : Option ℚ) (n : ℚ) (ps : PositionsVal)
    (hps : w.broker.positionsResp = .ok ps) :
    buyPositionsPhase a w st equity n =
      match ensurePositionLimits w.env (getPositionNotional ps a.symbol) n equity with
      | some m => (st, [⟨"risk_limit_triggered", "position_limit", a.symbol, m⟩],
          Except.ok (.err m))
      | none => (st, [], Except.ok (buySubmit a w.broker)) := by
  unfold buyPositionsPhase
  cases hP : w.broker.positionsResp with
  | error e => rw [hP] at hps; simp at hps
  | ok ps2 =>
    rw [hP] at hps
    injection hps with h2
    subst h2
    rfl

theorem buy_gate_eq (a : OrderArgs) (w : World) (acc : Account) (ps : PositionsVal)
    (hacc : w.broker.accountResp = .ok acc)
    (hps : w.broker.positionsResp = .ok ps)
    (hsz : ¬(a.qty = none ∧ a.notional = none))
    (hfc : ¬(estimateOrderNotional a.qty a.notional a.estimated_price = none
              ∧ anyNotionalLimitConfigured w.env = true)) :
    live_buy a w =
      match firstSome (riskChecksInSpecOrder w.env w.today w.state acc
          (estimateOrderNotional a.qty a.notional a.estimated_price) ps a.symbol) with
      | some (t, m, r) =>
        ((dailyLossExceeded w.env w.today acc.equity w.state).2,
          [⟨"risk_limit_triggered", t, a.symbol, m⟩], Except.ok r)
      | none =>
        ((dailyLossExceeded w.env w.today acc.equity w.state).2, [],
          Except.ok (buySubmit a w.broker)) := by
  cases honv : estimateOrderNotional a.qty a.notional a.estimated_price with
  | none =>
    have hcfg : anyNotionalLimitConfigured w.env = false := by
      cases hAC : anyNotionalLimitConfigured w.env
      · rfl
      · exact absurd ⟨honv, hAC⟩ hfc
    unfold live_buy
    rw [if_neg hsz]
    cases hE : w.broker.accountResp with
    | error e => rw [hE] at hacc; simp at hacc
    | ok account =>
      rw [hE] at hacc
      injection hacc with h2
      subst h2
      dsimp only
      rw [honv, if_neg (by simp [hcfg])]
      cases hdl : (dailyLossExceeded w.env w.today account.equity w.state).1 with
      | some m => simp [riskChecksInSpecOrder, firstSome, hdl]
      | none => simp [riskChecksInSpecOrder, firstSome, hdl]
  | some n =>
    unfold live_buy
    rw [if_neg hsz]
    cases hE : w.broker.accountResp with
    | error e => rw [hE] at hacc; simp at hacc
    | ok account =>
      rw [hE] at hacc
      injection hacc with h2
      subst h2
      dsimp only
      rw [honv, if_neg (by simp)]
      cases hdl : (dailyLossExceeded w.env w.today account.equity w.state).1 with
      | some m => simp [riskChecksInSpecOrder, firstSome, hdl]
      | none =>
        cases habs : orderAbsCheck w.env n with
        | some m =>
          simp [riskChecksInSpecOrder, firstSome, hdl, habs, ensureNotionalLimits]
        | none =>
          cases hpct : orderPctCheck w.env n account.equity with
          | some m =>
            simp [riskChecksInSpecOrder, firstSome, hdl, habs, hpct, ensureNotionalLimits]
          | none =>
            cases hbp : account.buying_power with
            | none =>
              dsimp only
              rw [buyPositionsPhase_eq a w _ _ _ ps hps]
              cases hpos : ensurePositionLimits w.env (getPositionNotional ps a.symbol) n
                  account.equity with
              | some m =>
                simp [riskChecksInSpecOrder, firstSome, hdl, habs, hpct, hbp, hpos,
                  ensureNotionalLimits]
              | none =>
                simp [riskChecksInSpecOrder, firstSome, hdl, habs, hpct, hbp, hpos,
                  ensureNotionalLimits]
            | some bp =>
              by_cases hgt : n > bp
              · simp [riskChecksInSpecOrder, firstSome, hdl, habs, hpct, hbp, hgt,
                  ensureNotionalLimits]
              · dsimp only
                rw [if_neg hgt, buyPositionsPhase_eq a w _ _ _ ps hps]
                cases hpos : ensurePositionLimits w.env (getPositionNotional ps a.symbol) n
                    account.equity with
                | some m =>
                  simp [riskChecksInSpecOrder, firstSome, hdl, habs, hpct, hbp, hgt, hpos,
                    ensureNotionalLimits]
                | none =>
                  simp [riskChecksInSpecOrder, firstSome, hdl, habs, hpct, hbp, hgt, hpos,
                    ensureNotionalLimits]

/-- Sum of a constant-plus-one list when every index is below the cutoff. -/
theorem range_map_sum_all (c : ℚ) :
    ∀ (k : ℕ) (r : ℤ), (k : ℤ) ≤ r →
      ((List.range k).map (fun (i : ℕ) => if (i : ℤ) < r then c + 1 else c)).sum = k * (c + 1) := by
  intro k
  induction k with
  | zero => intro r _; simp
  | succ k ih =>
    intro r hr
    rw [List.range_succ, List.map_append, List.sum_append]
    simp only [List.map_cons, List.map_nil, List.sum_cons, List.sum_nil, add_zero]
    rw [ih r (by omega), if_pos (by exact_mod_cast by omega : ((k : ℕ) : ℤ) < r)]
    push_cast
    ring

/-- Sum of `base`-sized slices with one extra unit on the first `r` slices. -/
theorem range_map_sum_indicator (c : ℚ) :
    ∀ (k : ℕ) (r : ℤ), 0 ≤ r → r ≤ (k : ℤ) →
      ((List.range k).map (fun (i : ℕ) => if (i : ℤ) < r then c + 1 else c)).sum
        = k * c + r := by
  intro k
  induction k with
  | zero =>
    intro r h0 h1
    have hr : r = 0 := by omega
    subst hr
    simp
  | succ k ih =>
    intro r h0 h1
    rw [List.range_succ, List.map_append, List.sum_append]
    simp only [List.map_cons, List.map_nil, List.sum_cons, List.sum_nil, add_zero]
    by_cases hr : r ≤ (k : ℤ)
    · rw [ih r h0 hr, if_neg (by omega)]
      push_cast
      ring
    · have hrk : r = (k : ℤ) + 1 := by omega
      subst hrk
      rw [range_map_sum_all c k ((k : ℤ) + 1) (by omega), if_pos (by omega)]
      push_cast
      ring

/-- For a whole-number total quantity the equity split sums to the total. -/
theorem splitEquityQty_sum_nat (n : ℕ) (s : ℤ) :
    (splitEquityQty (n : ℚ) s).sum = (n : ℚ) := by
  unfold splitEquityQty
  by_cases hs : s ≤ 1
  · simp [hs]
  · rw [if_neg hs]
    have ht : pyTrunc (n : ℚ) = (n : ℤ) := by
      unfold pyTrunc
      rw [Rat.num_natCast, Rat.den_natCast]
      exact_mod_cast Int.tdiv_one (n : ℤ)
    rw [ht]
    by_cases hb : Int.fdiv (n : ℤ) s ≤ 0
    · rw [if_pos hb]
      simp
    · rw [if_neg hb]
      have hs2 : 2 ≤ s := by omega
      have hbase : 1 ≤ Int.fdiv (n : ℤ) s := by omega
      have hfeq : ((List.range s.toNat).map
          (fun (i : ℕ) =>
            if (i : ℤ) < Int.fmod (n : ℤ) s then (Int.fdiv (n : ℤ) s : ℚ) + 1
            else (Int.fdiv (n : ℤ) s : ℚ))).filter (fun q => 0 < q)
          = (List.range s.toNat).map
            (fun (i : ℕ) =>
              if (i : ℤ) < Int.fmod (n : ℤ) s then (Int.fdiv (n : ℤ) s : ℚ) + 1
              else (Int.fdiv (n : ℤ) s : ℚ)) := by
        rw [List.filter_eq_self]
        intro q hq
        obtain ⟨i, _, rfl⟩ := List.mem_map.mp hq
        have h1 : (1 : ℚ) ≤ (Int.fdiv (n : ℤ) s : ℚ) := by exact_mod_cast hbase
        split <;> (simp_all; try positivity)
      rw [hfeq]
      rw [range_map_sum_indicator (Int.fdiv (n : ℤ) s : ℚ) s.toNat (Int.fmod (n : ℤ) s)
        (Int.fmod_nonneg' (n : ℤ) (by omega))
        (by rw [Int.toNat_of_nonneg (by omega : (0:ℤ) ≤ s)]; exact le_of_lt (Int.fmod_lt_of_pos (n : ℤ) (by omega)))]
      have hid := Int.fdiv_add_fmod (n : ℤ) s
      have hcast : ((s.toNat : ℕ) : ℚ) = (s : ℚ) := by
        exact_mod_cast congrArg (fun z : ℤ => (z : ℚ)) (Int.toNat_of_nonneg (by omega : (0:ℤ) ≤ s))
      rw [hcast]
      have : ((s * Int.fdiv (n : ℤ) s + Int.fmod (n : ℤ) s : ℤ) : ℚ) = ((n : ℤ) : ℚ) := by
        exact_mod_cast congrArg (fun z : ℤ => (z : ℚ)) hid
      push_cast at this ⊢
      linarith

/-- The first defined element of an option list is a member. -/
theorem firstSome_mem {α : Type} :
    ∀ (l : List (Option α)) (x : α), firstSome l = some x → some x ∈ l := by
  intro l
  induction l with
  | nil => intro x h; simp [firstSome] at h
  | cons o rest ih =>
    intro x h
    cases o with
    | some a =>
      simp [firstSome] at h
      subst h
      exact List.mem_cons_self _ _
    | none =>
      simp only [firstSome] at h
      exact List.mem_cons_of_mem _ (ih x h)

/-- Every rejection the spec-ordered pipeline can produce carries its message
in the returned dict and one of the four alert types. -/
theorem riskChecks_shape (e : Env) (today : String) (st : StateFile) (acc : Account)
    (onv : Option ℚ) (ps : PositionsVal) (sym : String) (t m : String) (r : TradeRes)
    (h : firstSome (riskChecksInSpecOrder e today st acc onv ps sym) = some (t, m, r)) :
    tradeErrMsg r = some m
      ∧ (t = "daily_loss" ∨ t = "order_notional" ∨ t = "buying_power"
          ∨ t = "position_limit") := by
  have hm := firstSome_mem _ _ h
  simp only [riskChecksInSpecOrder, List.mem_cons, List.not_mem_nil, or_false] at hm
  rcases hm with h1 | h1 | h1 | h1 | h1
  · rcases Option.map_eq_some.mp h1.symm with ⟨m0, _, heq⟩
    simp only [Prod.mk.injEq] at heq
    obtain ⟨ht, hm2, hr⟩ := heq
    subst ht; subst hm2; subst hr
    exact ⟨rfl, by simp⟩
  · rcases Option.bind_eq_some.mp h1.symm with ⟨n, _, h2⟩
    rcases Option.map_eq_some.mp h2 with ⟨m0, _, heq⟩
    simp only [Prod.mk.injEq] at heq
    obtain ⟨ht, hm2, hr⟩ := heq
    subst ht; subst hm2; subst hr
    exact ⟨rfl, by simp⟩
  · rcases Option.bind_eq_some.mp h1.symm with ⟨n, _, h2⟩
    rcases Option.map_eq_some.mp h2 with ⟨m0, _, heq⟩
    simp only [Prod.mk.injEq] at heq
    obtain ⟨ht, hm2, hr⟩ := heq
    subst ht; subst hm2; subst hr
    exact ⟨rfl, by simp⟩
  · rcases Option.bind_eq_some.mp h1.symm with ⟨n, _, h2⟩
    rcases Option.bind_eq_some.mp h2 with ⟨bp, _, h3⟩
    split at h3
    · simp only [Option.some.injEq, Prod.mk.injEq] at h3
      obtain ⟨ht, hm2, hr⟩ := h3
      subst ht; subst hm2; subst hr
      exact ⟨rfl, by simp⟩
    · cases h3
  · rcases Option.bind_eq_some.mp h1.symm with ⟨n, _, h2⟩
    rcases Option.map_eq_some.mp h2 with ⟨m0, _, heq⟩
    simp only [Prod.mk.injEq] at heq
    obtain ⟨ht, hm2, hr⟩ := heq
    subst ht; subst hm2; subst hr
    exact ⟨rfl, by simp⟩

/-- Characterisation of `_daily_loss_exceeded` for a configured limit, a
same-day stored baseline and a non-zero `equity_start`: it rejects exactly
when `max 0 ((equity_start − equity) / equity_start) ≥ max_daily_loss_pct`,
and leaves the persisted state unchanged. -/
theorem dailyLossExceeded_char (e : Env) (st : StateFile) (today : String)
    (es eqy lim : ℚ)
    (hlim : getEnvFloat e.maxDailyLossPct = some lim)
    (hst : st.daily = some ⟨some today, some es⟩)
    (hes : es ≠ 0) :
    ((dailyLossExceeded e today (some eqy) st).1.isSome
        ↔ max 0 ((es - eqy) / es) ≥ lim)
      ∧ (dailyLossExceeded e today (some eqy) st).2 = st := by
  have hday : getOrInitDayState today eqy st = (⟨some today, some es⟩, st) := by
    unfold getOrInitDayState
    rw [hst]
    simp
  unfold dailyLossExceeded
  rw [hlim]
  dsimp only
  rw [hday]
  dsimp only
  rw [if_neg hes]
  by_cases hdd : max 0 ((es - eqy) / es) ≥ lim
  · rw [if_pos hdd]
    exact ⟨by simpa using hdd, rfl⟩
  · rw [if_neg hdd]
    exact ⟨by simpa using hdd, rfl⟩

/-- Truncation of the fractional quantity 10.5. -/
theorem pyTrunc_half21 : pyTrunc (21 / 2 : ℚ) = 10 := by
  have h : (21 / 2 : ℚ) = Rat.mk' 21 2 (by norm_num) (by norm_num) := by
    rw [Rat.mk'_eq_divInt, Rat.divInt_eq_div]
    norm_num
  rw [h]
  decide

/-- Concrete evaluation of the equity split at the fractional quantity. -/
theorem splitEquityQty_half21 : splitEquityQty (21 / 2 : ℚ) 3 = [4, 3, 3] := by
  unfold splitEquityQty
  rw [pyTrunc_half21]
  rw [if_neg (by norm_num), if_neg (by decide)]
  rw [show Int.fmod 10 3 = 1 from by decide, show Int.fdiv 10 3 = 3 from by decide]
  simp only [show (3 : ℤ).toNat = 3 from rfl, List.range_succ, List.range_zero]
  norm_num

/-- Concrete evaluation of the equity split at `qty = 10, slices = 3`. -/
theorem splitEquityQty_10_3 : splitEquityQty 10 3 = [4, 3, 3] := by
  have htr : pyTrunc ((10 : ℕ) : ℚ) = ((10 : ℕ) : ℤ) := by
    unfold pyTrunc
    rw [Rat.num_natCast, Rat.den_natCast]
    exact_mod_cast Int.tdiv_one ((10 : ℕ) : ℤ)
  unfold splitEquityQty
  rw [show ((10 : ℚ)) = ((10 : ℕ) : ℚ) from by norm_num, htr]
  rw [if_neg (by norm_num), if_neg (by decide)]
  rw [show Int.fmod ((10:ℕ) : ℤ) 3 = 1 from by decide,
    show Int.fdiv ((10:ℕ) : ℤ) 3 = 3 from by decide]
  simp only [show (3 : ℤ).toNat = 3 from rfl, List.range_succ, List.range_zero]
  norm_num

/-- Concrete evaluation of the equity split at `qty = 2, slices = 5`:
`base = 0`, so the degenerate single slice `[2]` is returned. -/
theorem splitEquityQty_2_5 : splitEquityQty 2 5 = [2] := by
  have htr : pyTrunc ((2 : ℕ) : ℚ) = ((2 : ℕ) : ℤ) := by
    unfold pyTrunc
    rw [Rat.num_natCast, Rat.den_natCast]
    exact_mod_cast Int.tdiv_one ((2 : ℕ) : ℤ)
  unfold splitEquityQty
  rw [show ((2 : ℚ)) = ((2 : ℕ) : ℚ) from by norm_num, htr]
  rw [if_neg (by norm_num), if_pos (by decide)]
  norm_num

/-- C6 counterexample: the claim's universal sum invariant fails at the
fractional quantity `qty = 10.5, slices = 3` — the split is `[4, 3, 3]`,
which sums to `10`, not `10.5` (the code truncates `int(qty)` first). -/
theorem C6_counterexample :
    splitEquityQty (21 / 2 : ℚ) 3 = [4, 3, 3]
      ∧ (splitEquityQty (21 / 2 : ℚ) 3).sum ≠ (21 / 2 : ℚ) := by
  refine ⟨splitEquityQty_half21, ?_⟩
  rw [splitEquityQty_half21]
  norm_num

/-- C6 (amended): TWAP equity splitting computes `base = int(qty) // slices`
with the remainder distributed one unit each to the earliest slices and no
slice dropped when `base ≥ 1`; `qty=10, slices=3` gives `[4,3,3]`,
`qty=2, slices=5` drops to the single slice `[2]`; for every whole-number
total quantity the slice quantities sum to the original total (a fractional
total is truncated, so only whole-number totals satisfy the invariant). -/
theorem C6_twap_equity_split :
    splitEquityQty 10 3 = [4, 3, 3] ∧ splitEquityQty 2 5 = [2]
      ∧ (∀ (n : ℕ) (s : ℤ), (splitEquityQty (n : ℚ) s).sum = (n : ℚ))
      ∧ (∀ (q : ℚ) (s : ℤ), 2 ≤ s → 1 ≤ Int.fdiv (pyTrunc q) s →
          splitEquityQty q s = (List.range s.toNat).map
            (fun (i : ℕ) =>
              if (i : ℤ) < Int.fmod (pyTrunc q) s then (Int.fdiv (pyTrunc q) s : ℚ) + 1
              else (Int.fdiv (pyTrunc q) s : ℚ))) := by
  refine ⟨splitEquityQty_10_3, splitEquityQty_2_5, splitEquityQty_sum_nat, ?_⟩
  intro q s hs hb
  unfold splitEquityQty
  rw [if_neg (by omega), if_neg (by omega)]
  refine List.filter_eq_self.mpr ?_
  intro x hx
  obtain ⟨i, _, rfl⟩ := List.mem_map.mp hx
  have h1 : (1 : ℚ) ≤ (Int.fdiv (pyTrunc q) s : ℚ) := by exact_mod_cast hb
  simp only [decide_eq_true_eq]
  split
  · linarith
  · linarith

theorem C6_witness :
    (splitEquityQty ((10 : ℕ) : ℚ) 3).sum = ((10 : ℕ) : ℚ)
      ∧ splitEquityQty (21 / 2 : ℚ) 3 = (List.range (3 : ℤ).toNat).map
          (fun (i : ℕ) =>
            if (i : ℤ) < Int.fmod (pyTrunc (21 / 2 : ℚ)) 3 then
              (Int.fdiv (pyTrunc (21 / 2 : ℚ)) 3 : ℚ) + 1
            else (Int.fdiv (pyTrunc (21 / 2 : ℚ)) 3 : ℚ)) :=
  ⟨C6_twap_equity_split.2.2.1 10 3,
    C6_twap_equity_split.2.2.2 (21 / 2 : ℚ) 3 (by norm_num)
      (by rw [pyTrunc_half21]; decide)⟩

/-- C7: `get_or_init_day_state` is write-once per calendar day — a second
same-day call with a different equity returns the first recorded baseline
and leaves the persisted file unchanged — and on a date change it replaces
the state with `{date: today, equity_start: equity_now}`, persists it, and
discards the prior baseline. -/
theorem C7_day_state_write_once :
    (∀ (today : String) (e1 e2 : ℚ) (st : StateFile),
        getOrInitDayState today e2 (getOrInitDayState today e1 st).2
          = ((getOrInitDayState today e1 st).1, (getOrInitDayState today e1 st).2))
      ∧ (∀ (today : String) (e : ℚ) (st : StateFile),
          (st.daily.getD ⟨none, none⟩).date ≠ some today →
            getOrInitDayState today e st
              = (⟨some today, some e⟩, ⟨some ⟨some today, some e⟩⟩)) := by
  constructor
  · intro today e1 e2 st
    by_cases hd : (st.daily.getD ⟨none, none⟩).date = some today
    · simp [getOrInitDayState, hd]
    · simp [getOrInitDayState, hd]
  · intro today e st hd
    simp [getOrInitDayState, hd]

/-- C7 witness: the rotation clause at the spec's concrete example —
baseline of `2024-01-01` queried on `2024-01-02` with equity 9000. -/
theorem C7_witness :
    getOrInitDayState "2024-01-02" 9000 ⟨some ⟨some "2024-01-01", some 10000⟩⟩
      = (⟨some "2024-01-02", some 9000⟩, ⟨some ⟨some "2024-01-02", some 9000⟩⟩) :=
  C7_day_state_write_once.2 "2024-01-02" 9000 ⟨some ⟨some "2024-01-01", some 10000⟩⟩
    (by decide)

/-- C8: the daily-loss circuit breaker rejects a buy exactly when
`max 0 ((equity_start − equity) / equity_start) ≥ max_daily_loss_pct`
(given a configured limit, a same-day baseline and a non-zero
`equity_start`); with baseline 10000 and limit 5%, equity 9500 is rejected
and 9501 passes; and `live_sell` never consults the breaker — its outcome
ignores `MAX_DAILY_LOSS_PCT` and the day state, which it never rewrites. -/
theorem C8_daily_loss_breaker :
    (∀ (e : Env) (st : StateFile) (today : String) (es eqy lim : ℚ),
        getEnvFloat e.maxDailyLossPct = some lim →
        st.daily = some ⟨some today, some es⟩ →
        es ≠ 0 →
        ((dailyLossExceeded e today (some eqy) st).1.isSome
            ↔ max 0 ((es - eqy) / es) ≥ lim)
          ∧ (dailyLossExceeded e today (some eqy) st).2 = st)
      ∧ ((dailyLossExceeded envDL "2024-01-02" (some 9500) stDL).1.isSome = true
          ∧ (dailyLossExceeded envDL "2024-01-02" (some 9501) stDL).1.isSome = false)
      ∧ (∀ (a : OrderArgs) (w : World) (v : EnvVal) (st2 : StateFile),
          (live_sell a ⟨{ w.env with maxDailyLossPct := v }, w.broker, w.today, st2⟩).2
              = (live_sell a w).2
            ∧ (live_sell a w).1 = w.state) := by
  have key := dailyLossExceeded_char
  refine ⟨key, ⟨?_, ?_⟩, ?_⟩
  · exact ((key envDL stDL "2024-01-02" 10000 9500 (1/20) rfl rfl (by norm_num)).1).mpr
      (by norm_num)
  · have h2 := (key envDL stDL "2024-01-02" 10000 9501 (1/20) rfl rfl (by norm_num)).1
    have h3 : ¬ (max (0:ℚ) (((10000:ℚ) - 9501) / 10000) ≥ (1/20 : ℚ)) := by norm_num
    have h4 := mt h2.mp h3
    simpa using h4
  · intro a w v st2
    constructor
    · unfold live_sell
      dsimp only
      by_cases h1 : a.qty = none ∧ a.notional = none
      · rw [if_pos h1, if_pos h1]
      · rw [if_neg h1, if_neg h1]
        have hflag : allowShortFlag { w.env with maxDailyLossPct := v } = allowShortFlag w.env :=
          rfl
        rw [hflag]
        by_cases h2 : allowShortFlag w.env = false ∧ a.qty ≠ none
        · rw [if_pos h2, if_pos h2]
          cases hps : w.broker.positionsResp with
          | error e => rfl
          | ok ps =>
            dsimp only
            by_cases h3 : a.qty.getD 0 > getPositionQty ps a.symbol
            · rw [if_pos h3, if_pos h3]
            · rw [if_neg h3, if_neg h3]
        · rw [if_neg h2, if_neg h2]
    · unfold live_sell
      dsimp only
      by_cases h1 : a.qty = none ∧ a.notional = none
      · rw [if_pos h1]
      · rw [if_neg h1]
        by_cases h2 : allowShortFlag w.env = false ∧ a.qty ≠ none
        · rw [if_pos h2]
          cases hps : w.broker.positionsResp with
          | error e => rfl
          | ok ps =>
            dsimp only
            by_cases h3 : a.qty.getD 0 > getPositionQty ps a.symbol
            · rw [if_pos h3]
            · rw [if_neg h3]
        · rw [if_neg h2]

/-- C8 witness: the rejection characterisation applied at baseline 10000,
equity 9500, limit 5%. -/
theorem C8_witness :
    ((dailyLossExceeded envDL "2024-01-02" (some 9500) stDL).1.isSome
        ↔ max 0 (((10000 : ℚ) - 9500) / 10000) ≥ (1/20 : ℚ))
      ∧ (dailyLossExceeded envDL "2024-01-02" (some 9500) stDL).2 = stDL :=
  C8_daily_loss_breaker.1 envDL stDL "2024-01-02" 10000 9500 (1/20) rfl rfl (by norm_num)

/-- C9: with shorting disabled, a `qty` sell above the held quantity is
rejected with the current held quantity reported in the result, a sell of
exactly the held quantity proceeds to submission, and notional-only sells
bypass the guard entirely (no position fetch, straight to submission). -/
theorem C9_short_sale_guard :
    ∀ (a : OrderArgs) (w : World) (ps : PositionsVal) (q : ℚ),
      allowShortFlag w.env = false →
      w.broker.positionsResp = .ok ps →
      a.qty = some q →
      ((q > getPositionQty ps a.symbol →
          live_sell a w = (w.state, [],
            Except.ok (.errCurrentQty "Shorting disabled or insufficient position"
              (getPositionQty ps a.symbol))))
        ∧ (q ≤ getPositionQty ps a.symbol →
            live_sell a w = (w.state, [], Except.ok (sellSubmit a w.broker)))
        ∧ (∀ (b : OrderArgs) (v : World), b.qty = none → b.notional ≠ none →
            live_sell b v = (v.state, [], Except.ok (sellSubmit b v.broker)))) := by
  intro a w ps q hflag hps hq
  refine ⟨?_, ?_, ?_⟩
  · intro hgt
    unfold live_sell
    rw [if_neg (by simp [hq])]
    rw [if_pos ⟨hflag, by simp [hq]⟩]
    cases hE : w.broker.positionsResp with
    | error e => rw [hE] at hps; simp at hps
    | ok ps2 =>
      rw [hE] at hps
      injection hps with h2
      subst h2
      dsimp only
      rw [if_pos (by rw [hq]; simpa using hgt)]
  · intro hle
    unfold live_sell
    rw [if_neg (by simp [hq])]
    rw [if_pos ⟨hflag, by simp [hq]⟩]
    cases hE : w.broker.positionsResp with
    | error e => rw [hE] at hps; simp at hps
    | ok ps2 =>
      rw [hE] at hps
      injection hps with h2
      subst h2
      dsimp only
      rw [if_neg (by rw [hq]; simpa using not_lt.mpr hle)]
  · intro b v hbq hbn
    unfold live_sell
    rw [if_neg (by simp [hbn])]
    rw [if_neg (fun h2 => h2.2 hbq)]

/-- C9 witness: held qty 5 — sell 8 rejected with `current_qty = 5`,
sell 5 accepted. -/
theorem C9_witness :
    live_sell argsSell8 wHeld = (⟨none⟩, [],
        Except.ok (.errCurrentQty "Shorting disabled or insufficient position" 5))
      ∧ live_sell argsSell5 wHeld
        = (⟨none⟩, [], Except.ok (sellSubmit argsSell5 wHeld.broker)) := by
  have hq5 : getPositionQty (some [some ⟨"AAPL", some 5, some 900⟩]) "AAPL" = 5 := by
    simp [getPositionQty]
  have hsym8 : argsSell8.symbol = "AAPL" := rfl
  have hsym5 : argsSell5.symbol = "AAPL" := rfl
  constructor
  · have h := (C9_short_sale_guard argsSell8 wHeld (some [some ⟨"AAPL", some 5, some 900⟩]) 8
      (by decide) rfl rfl).1 (by rw [hsym8, hq5]; norm_num)
    rw [hsym8, hq5] at h
    exact h
  · have h := (C9_short_sale_guard argsSell5 wHeld (some [some ⟨"AAPL", some 5, some 900⟩]) 5
      (by decide) rfl rfl).2.1 (by rw [hsym5, hq5])
    exact h

/-- C10: a present-but-unparseable risk-limit variable reads as `None` and
disables the corresponding check exactly as if the variable were unset —
in the order limits, the position limits, the daily-loss breaker and the
fail-closed configured-limit test — never raising and never defaulting the
limit to zero. -/
theorem C10_malformed_limit_env :
    (getEnvFloat .malformed = none ∧ getEnvFloat .malformed = getEnvFloat .unset)
      ∧ (∀ (e : Env) (n : ℚ) (eqy : Option ℚ),
          ensureNotionalLimits { e with maxOrderNotionalUsd := .malformed } n eqy
              = ensureNotionalLimits { e with maxOrderNotionalUsd := .unset } n eqy
            ∧ ensureNotionalLimits { e with maxOrderPctEquity := .malformed } n eqy
              = ensureNotionalLimits { e with maxOrderPctEquity := .unset } n eqy)
      ∧ (∀ (e : Env) (c o : ℚ) (eqy : Option ℚ),
          ensurePositionLimits { e with maxPositionNotionalUsd := .malformed } c o eqy
              = ensurePositionLimits { e with maxPositionNotionalUsd := .unset } c o eqy
            ∧ ensurePositionLimits { e with maxPositionPctEquity := .malformed } c o eqy
              = ensurePositionLimits { e with maxPositionPctEquity := .unset } c o eqy)
      ∧ (∀ (e : Env) (today : String) (eqy : Option ℚ) (st : StateFile),
          dailyLossExceeded { e with maxDailyLossPct := .malformed } today eqy st
            = dailyLossExceeded { e with maxDailyLossPct := .unset } today eqy st)
      ∧ (∀ (e : Env),
          anyNotionalLimitConfigured { e with maxOrderNotionalUsd := .malformed }
            = anyNotionalLimitConfigured { e with maxOrderNotionalUsd := .unset }) :=
  ⟨⟨rfl, rfl⟩, fun _ _ _ => ⟨rfl, rfl⟩, fun _ _ _ _ => ⟨rfl, rfl⟩,
    fun _ _ _ _ => rfl, fun _ => rfl⟩

/-- C5: when the order notional cannot be estimated (no `notional`, `qty`
without `estimated_price`) and any of the four notional limits is
configured, the buy is rejected fail-closed with a structured error before
any broker submission — the outcome is the same for every submission
oracle, so no order is ever submitted. -/
theorem C5_fail_closed :
    ∀ (a : OrderArgs) (w : World) (acc : Account) (q : ℚ),
      w.broker.accountResp = .ok acc →
      a.notional = none → a.qty = some q → a.estimated_price = none →
      anyNotionalLimitConfigured w.env = true →
      ∀ (f : SubmitArgs → Except Exc OrderResponse),
        live_buy a ⟨w.env, ⟨w.broker.accountResp, w.broker.positionsResp, f⟩, w.today, w.state⟩
          = (w.state, [],
            Except.ok (.err "estimated_price is required when qty is used with notional limits")) := by
  intro a w acc q hacc hn hq hep hcfg f
  unfold live_buy
  dsimp only
  rw [if_neg (by simp [hq])]
  cases hE : w.broker.accountResp with
  | error e => rw [hE] at hacc; simp at hacc
  | ok account =>
    dsimp only
    have honv : estimateOrderNotional a.qty a.notional a.estimated_price = none := by
      simp [estimateOrderNotional, hn, hq, hep]
    rw [honv]
    rw [if_pos ⟨rfl, hcfg⟩]

/-- C5 witness: the fail-closed rejection at a world with
`MAX_ORDER_NOTIONAL_USD` configured and a qty-only buy intent. -/
theorem C5_witness :
    live_buy argsQty1
        ⟨wCX.env, ⟨wCX.broker.accountResp, wCX.broker.positionsResp, wCX.broker.submitResp⟩,
          wCX.today, wCX.state⟩
      = (wCX.state, [],
        Except.ok (.err "estimated_price is required when qty is used with notional limits")) :=
  C5_fail_closed argsQty1 wCX ⟨some 9500, some 50000⟩ 1 rfl rfl rfl rfl (by decide)
    wCX.broker.submitResp

/-- C2 (amended): order-submission failures are caught at the Order Router
boundary and returned as `{"error": str(exc)}`; when the account-snapshot
and position fetches succeed, `live_buy` and `live_sell` always return a
structured result and never raise.  (Failures of the account-snapshot and
position fetches themselves are *not* caught — see the counterexample.) -/
theorem C2_broker_error_handling :
    ∀ (a : OrderArgs) (w : World) (acc : Account) (ps : PositionsVal),
      w.broker.accountResp = .ok acc →
      w.broker.positionsResp = .ok ps →
      ((∃ r, (live_buy a w).2.2 = Except.ok r) ∧ (∃ r, (live_sell a w).2.2 = Except.ok r))
        ∧ (∀ (s : SubmitArgs) (e : Exc), submitOrder w.broker s = .error e →
            submitCaught w.broker s = .err e) := by
  intro a w acc ps hacc hps
  refine ⟨⟨?_, ?_⟩, ?_⟩
  · obtain ⟨st, al, r, h⟩ := live_buy_total a w acc ps hacc hps
    exact ⟨r, by rw [h]⟩
  · obtain ⟨st, al, r, h⟩ := live_sell_total a w ps hps
    exact ⟨r, by rw [h]⟩
  · intro s e he
    unfold submitCaught
    rw [he]

/-- C2 counterexample: a failing account-snapshot fetch propagates out of
`live_buy` as an exception (`Except.error`) instead of being returned as a
structured error result, refuting the claim for account-fetch failures. -/
theorem C2_counterexample :
    live_buy argsQty1 wBoom = (⟨none⟩, [], Except.error "Alpaca API error 500: boom") := rfl

/-- C2 witness: with a healthy broker, buy and sell return structured
results. -/
theorem C2_witness :
    (∃ r, (live_buy argsQty1 wOK).2.2 = Except.ok r)
      ∧ (∃ r, (live_sell argsQty1 wOK).2.2 = Except.ok r) := by
  have h := C2_broker_error_handling argsQty1 wOK ⟨some 9500, some 50000⟩ (some []) rfl rfl
  exact ⟨h.1.1, h.1.2⟩

/-- Concrete daily-loss evaluation: baseline 10000, equity 9500, limit 5%
trips the breaker. -/
theorem dailyLoss_wDL :
    dailyLossExceeded envDL "2024-01-02" (some 9500) stDL
      = (some ("Daily loss " ++ toString (max (0:ℚ) (((10000:ℚ) - 9500) / 10000))
          ++ " exceeds MAX_DAILY_LOSS_PCT " ++ toString (1/20 : ℚ)), stDL) := by
  have hday : getOrInitDayState "2024-01-02" 9500 stDL
      = (⟨some "2024-01-02", some 10000⟩, stDL) := by
    unfold getOrInitDayState
    rw [show stDL.daily = some ⟨some "2024-01-02", some (10000:ℚ)⟩ from rfl]
    simp
  unfold dailyLossExceeded
  rw [show getEnvFloat envDL.maxDailyLossPct = some (1/20 : ℚ) from rfl]
  dsimp only
  rw [hday]
  dsimp only
  rw [if_neg (show ¬((10000:ℚ) = 0) by norm_num)]
  rw [if_pos (show max (0:ℚ) (((10000:ℚ) - 9500) / 10000) ≥ (1/20 : ℚ) by norm_num)]

/-- The spec-ordered pipeline at the tripped-breaker world fires the
daily-loss check first. -/
theorem gate_wDL :
    firstSome (riskChecksInSpecOrder envDL "2024-01-02" stDL ⟨some 9500, some 50000⟩
        none (some []) "AAPL")
      = some ("daily_loss",
          "Daily loss " ++ toString (max (0:ℚ) (((10000:ℚ) - 9500) / 10000))
            ++ " exceeds MAX_DAILY_LOSS_PCT " ++ toString (1/20 : ℚ),
          TradeRes.err ("Daily loss " ++ toString (max (0:ℚ) (((10000:ℚ) - 9500) / 10000))
            ++ " exceeds MAX_DAILY_LOSS_PCT " ++ toString (1/20 : ℚ))) := by
  simp only [riskChecksInSpecOrder]
  rw [dailyLoss_wDL]
  simp [firstSome]

/-- C4 (amended): once past the fail-closed guard (order notional known, or
no notional limit configured), the buy risk gate equals the first failing
check of the spec-ordered pipeline — daily-loss breaker, per-order notional
limit, per-order percent-of-equity limit, buying-power check, position
notional limit — with the first failure short-circuiting the rest, and a
pass proceeding to submission. -/
theorem C4_risk_check_order :
    ∀ (a : OrderArgs) (w : World) (acc : Account) (ps : PositionsVal),
      w.broker.accountResp = .ok acc →
      w.broker.positionsResp = .ok ps →
      ¬(a.qty = none ∧ a.notional = none) →
      ¬(estimateOrderNotional a.qty a.notional a.estimated_price = none
          ∧ anyNotionalLimitConfigured w.env = true) →
      live_buy a w =
        match firstSome (riskChecksInSpecOrder w.env w.today w.state acc
            (estimateOrderNotional a.qty a.notional a.estimated_price) ps a.symbol) with
        | some (t, m, r) =>
          ((dailyLossExceeded w.env w.today acc.equity w.state).2,
            [⟨"risk_limit_triggered", t, a.symbol, m⟩], Except.ok r)
        | none =>
          ((dailyLossExceeded w.env w.today acc.equity w.state).2, [],
            Except.ok (buySubmit a w.broker)) :=
  fun a w acc ps hacc hps hsz hfc => buy_gate_eq a w acc ps hacc hps hsz hfc

/-- C4 counterexample: with the daily-loss breaker tripped *and* a
configured order-notional limit whose order notional is unevaluable,
`live_buy` returns the fail-closed `estimated_price` error — the failing
daily-loss check (shown tripped on the same inputs) does not win, so the
daily-loss check does not run before every order-sizing rejection. -/
theorem C4_counterexample :
    (dailyLossExceeded envCX "2024-01-02" (some 9500) stDL).1.isSome = true
      ∧ live_buy argsQty1 wCX = (stDL, [],
          Except.ok (.err "estimated_price is required when qty is used with notional limits")) := by
  constructor
  · exact ((dailyLossExceeded_char envCX stDL "2024-01-02" 10000 9500 (1/20) rfl rfl
      (by norm_num)).1).mpr (by norm_num)
  · rfl

/-- C4 witness: with only the daily-loss breaker configured and tripped,
the buy is rejected by the daily-loss check with its alert. -/
theorem C4_witness :
    live_buy argsQty1 wDL = (stDL,
        [⟨"risk_limit_triggered", "daily_loss", "AAPL",
          "Daily loss " ++ toString (max (0:ℚ) (((10000:ℚ) - 9500) / 10000))
            ++ " exceeds MAX_DAILY_LOSS_PCT " ++ toString (1/20 : ℚ)⟩],
        Except.ok (TradeRes.err
          ("Daily loss " ++ toString (max (0:ℚ) (((10000:ℚ) - 9500) / 10000))
            ++ " exceeds MAX_DAILY_LOSS_PCT " ++ toString (1/20 : ℚ)))) := by
  have h := C4_risk_check_order argsQty1 wDL ⟨some 9500, some 50000⟩ (some [])
    rfl rfl (by simp [argsQty1]) (by rintro ⟨-, hcfg⟩; exact absurd hcfg (by decide))
  rw [show wDL.env = envDL from rfl, show wDL.today = "2024-01-02" from rfl,
    show wDL.state = stDL from rfl, show argsQty1.symbol = "AAPL" from rfl,
    show estimateOrderNotional argsQty1.qty argsQty1.notional argsQty1.estimated_price
      = none from rfl] at h
  rw [gate_wDL] at h
  rw [show (⟨some (9500:ℚ), some (50000:ℚ)⟩ : Account).equity = some (9500:ℚ) from rfl,
    dailyLoss_wDL] at h
  exact h

/-- C1 (amended): every Limit-Evaluator rejection in `live_buy` notifies
the Alert Sink exactly once with event `risk_limit_triggered` and payload
`{type, symbol, details}` — `type` one of daily_loss, order_notional,
buying_power, position_limit, `details` the returned error message — before
the error result is returned, and a pass emits no alert; `live_sell` never
notifies the Alert Sink, so short-sale-guard rejections are unalerted. -/
theorem C1_risk_alerts :
    ∀ (a : OrderArgs) (w : World) (acc : Account) (ps : PositionsVal),
      w.broker.accountResp = .ok acc →
      w.broker.positionsResp = .ok ps →
      ¬(a.qty = none ∧ a.notional = none) →
      ¬(estimateOrderNotional a.qty a.notional a.estimated_price = none
          ∧ anyNotionalLimitConfigured w.env = true) →
      (match firstSome (riskChecksInSpecOrder w.env w.today w.state acc
          (estimateOrderNotional a.qty a.notional a.estimated_price) ps a.symbol) with
        | some (t, m, r) =>
          (live_buy a w).2.1 = [⟨"risk_limit_triggered", t, a.symbol, m⟩]
            ∧ (live_buy a w).2.2 = Except.ok r
            ∧ tradeErrMsg r = some m
            ∧ (t = "daily_loss" ∨ t = "order_notional" ∨ t = "buying_power"
                ∨ t = "position_limit")
        | none => (live_buy a w).2.1 = [])
      ∧ (∀ (b : OrderArgs) (v : World), (live_sell b v).2.1 = []) := by
  intro a w acc ps hacc hps hsz hfc
  refine ⟨?_, fun b v => live_sell_alerts_nil b v⟩
  have hg := buy_gate_eq a w acc ps hacc hps hsz hfc
  cases hf : firstSome (riskChecksInSpecOrder w.env w.today w.state acc
      (estimateOrderNotional a.qty a.notional a.estimated_price) ps a.symbol) with
  | some x =>
    obtain ⟨t, m, r⟩ := x
    rw [hf] at hg
    have hs := riskChecks_shape w.env w.today w.state acc
      (estimateOrderNotional a.qty a.notional a.estimated_price) ps a.symbol t m r hf
    exact ⟨by rw [hg], by rw [hg], hs.1, hs.2⟩
  | none =>
    rw [hf] at hg
    rw [hg]

/-- C1 counterexample: a sell rejected by the short-sale guard (held 5,
sell 8, shorting disabled) returns its error with an *empty* alert list —
the Alert Sink is not notified, refuting the claim for the sell path. -/
theorem C1_counterexample :
    live_sell argsSell8 wHeld = (⟨none⟩, [],
      Except.ok (.errCurrentQty "Shorting disabled or insufficient position" 5)) := by
  unfold live_sell
  rw [if_neg (by simp [argsSell8])]
  rw [if_pos ⟨by decide, by simp [argsSell8]⟩]
  rw [show wHeld.broker.positionsResp
    = Except.ok (some [some ⟨"AAPL", some (5:ℚ), some 900⟩]) from rfl]
  dsimp only
  rw [show getPositionQty (some [some ⟨"AAPL", some (5:ℚ), some 900⟩]) argsSell8.symbol
    = (5:ℚ) from by simp [getPositionQty, argsSell8]]
  rw [show argsSell8.qty.getD 0 = (8:ℚ) from rfl]
  rw [if_pos (show (8:ℚ) > 5 by norm_num)]
  rfl

/-- C1 witness: a tripped daily-loss buy emits exactly the
`risk_limit_triggered` alert, and the guarded sell emits none. -/
theorem C1_witness :
    (live_buy argsQty1 wDL).2.1 = [⟨"risk_limit_triggered", "daily_loss", "AAPL",
        "Daily loss " ++ toString (max (0:ℚ) (((10000:ℚ) - 9500) / 10000))
          ++ " exceeds MAX_DAILY_LOSS_PCT " ++ toString (1/20 : ℚ)⟩]
      ∧ (live_sell argsSell8 wHeld).2.1 = [] := by
  have h := C1_risk_alerts argsQty1 wDL ⟨some 9500, some 50000⟩ (some [])
    rfl rfl (by simp [argsQty1]) (by rintro ⟨-, hcfg⟩; exact absurd hcfg (by decide))
  have hb := h.1
  rw [show wDL.env = envDL from rfl, show wDL.today = "2024-01-02" from rfl,
    show wDL.state = stDL from rfl, show argsQty1.symbol = "AAPL" from rfl,
    show estimateOrderNotional argsQty1.qty argsQty1.notional argsQty1.estimated_price
      = none from rfl, gate_wDL] at hb
  exact ⟨hb.1, h.2 argsSell8 wHeld⟩

/-- C3 (amended): when each slice's account-snapshot and position fetches
succeed, the TWAP scheduler executes the planned slices sequentially to
completion and returns the slice count with one independent result per
slice — risk rejections and caught submission failures of individual slices
do not cancel the remaining slices.  (An uncaught broker failure inside a
slice aborts the whole schedule — see the counterexample.) -/
theorem C3_twap_runs_to_completion :
    ∀ (a : TwapArgs) (w : World) (acc : Account) (ps : PositionsVal) (xs : List ℚ),
      w.broker.accountResp = .ok acc →
      w.broker.positionsResp = .ok ps →
      (pyLower a.side = "buy" ∨ pyLower a.side = "sell") →
      ¬(a.qty = none ∧ a.notional = none) →
      twapPlan a w.env = .ok xs →
      ∃ st als rs,
        live_twap_order a w = (st, als, Except.ok (TwapRes.res rs.length rs))
          ∧ rs.length = xs.length := by
  intro a w acc ps xs hacc hps hside hsz hplan
  unfold live_twap_order
  rw [if_neg (by rcases hside with h | h <;> simp [h])]
  rw [if_neg hsz]
  rw [hplan]
  dsimp only
  have hstep : ∀ (x : ℚ) (w' : World),
      (w'.broker.accountResp = Except.ok acc ∧ w'.broker.positionsResp = Except.ok ps) →
      ∃ st al r, twapStep a (pyLower a.side) x w' = (st, al, Except.ok r) := by
    intro x w' hw
    unfold twapStep
    dsimp only
    by_cases hb : pyLower a.side = "buy"
    · rw [if_pos hb]
      exact live_buy_total _ w' acc ps hw.1 hw.2
    · rw [if_neg hb]
      exact live_sell_total _ w' ps hw.2
  obtain ⟨st, als2, rs, hr, hlen⟩ := runSlices_total (twapStep a (pyLower a.side))
    (fun w' => w'.broker.accountResp = Except.ok acc ∧ w'.broker.positionsResp = Except.ok ps)
    (fun w' st hw => hw) hstep xs w [] [] ⟨hacc, hps⟩
  rw [hr]
  exact ⟨st, als2, rs, rfl, by simpa using hlen⟩

/-- C3 counterexample: when the first slice's account fetch raises, the
TWAP scheduler does not run to completion — the exception propagates, the
remaining slices are cancelled, and no slice count or per-slice results are
returned, refuting "always runs to completion". -/
theorem C3_counterexample :
    live_twap_order twapN100 wBoom
      = (⟨none⟩, [], Except.error "Alpaca API error 500: boom") := rfl

/-- The TWAP plan for a 10-share 3-slice equity buy. -/
theorem twapPlan_10_3 : twapPlan twapQty10 env0 = .ok [4, 3, 3] := by
  unfold twapPlan twapSliceCount
  rw [show twapQty10.slices = some (3:ℤ) from rfl]
  dsimp only
  rw [if_neg (by norm_num)]
  rw [show twapQty10.qty = some (10:ℚ) from rfl]
  dsimp only
  rw [if_pos (show twapQty10.asset_class = "equity" from rfl)]
  rw [splitEquityQty_10_3]

/-- C3 witness: a 3-slice TWAP whose first slice submission is rejected by
the broker still returns three per-slice results. -/
theorem C3_witness :
    ∃ st als rs,
      live_twap_order twapQty10 wSliceFail = (st, als, Except.ok (TwapRes.res rs.length rs))
        ∧ rs.length = 3 := by
  have h := C3_twap_runs_to_completion twapQty10 wSliceFail ⟨some 9500, some 50000⟩ (some [])
    [4, 3, 3] rfl rfl (Or.inl (by decide)) (by simp [twapQty10]) twapPlan_10_3
  exact h

end AITrader
